import Mathlib

-- Verification of the blue-guy mob-programming tool: a shallow embedding of
-- its path resolver, error codec, metadata codec, debouncer, auto-commit
-- routine and RPC file service, with theorems checking the specification.

set_option maxHeartbeats 1000000

namespace BlueGuy

-- ## Path handling (model of Go path/filepath lexical operations, Unix rules)

namespace Filepath

/-- One step of Go `filepath.Clean`'s lexical element processing.  `acc` is
the reversed stack of output elements.  Empty and `.` elements are dropped;
`..` pops a non-`..` element, is dropped at the root of a rooted path, and is
kept for an unrooted path that has run out of elements. -/
def cleanStep (rooted : Bool) (acc : List String) (seg : String) : List String :=
  if seg = "" ∨ seg = "." then acc
  else if seg = ".." then
    match acc with
    | [] => if rooted then [] else [".."]
    | a :: rest => if a = ".." then seg :: acc else rest
  else seg :: acc

/-- Split a string into elements at `/` separators (the element scan of Go
`filepath.Clean`); `cur` accumulates the current element reversed. -/
def splitAcc (cur : List Char) : List Char → List String
  | [] => [String.mk cur.reverse]
  | c :: rest =>
    if c == '/' then String.mk cur.reverse :: splitAcc [] rest
    else splitAcc (c :: cur) rest

def splitSlash (s : String) : List String := splitAcc [] s.data

/-- Whether a path is rooted, i.e. begins with the separator. -/
def rooted (s : String) : Bool :=
  match s.data with
  | c :: _ => c == '/'
  | [] => false

/-- Join path elements with the separator. -/
def joinSegs : List String → String
  | [] => ""
  | [s] => s
  | s :: rest => s ++ ("/") ++ joinSegs rest

/-- Model of Go `filepath.Clean` (Unix): lexical cleaning — collapse `.`,
`..` and duplicate separators without consulting the filesystem. -/
def clean (path : String) : String :=
  if path = "" then "."
  else
    let r := rooted path
    let stack := (splitSlash path).foldl (cleanStep r) []
    let out := joinSegs stack.reverse
    if r then ("/") ++ out
    else if out = "" then "." else out

/-- Model of Go `filepath.Join` on two elements: join the non-empty elements
with the separator and `Clean` the result. -/
def join2 (a b : String) : String :=
  if a = "" ∧ b = "" then ""
  else if a = "" then clean b
  else if b = "" then clean a
  else clean (a ++ ("/") ++ b)

end Filepath

/-- Model of Go `strings.HasPrefix`. -/
def hasPrefixStr (s pre : String) : Bool := pre.data.isPrefixOf s.data

-- ## gRPC status codes and status errors

/-- The closed set of gRPC status codes (google.golang.org/grpc/codes). -/
inductive Code where
  | OK
  | Canceled
  | Unknown
  | InvalidArgument
  | DeadlineExceeded
  | NotFound
  | AlreadyExists
  | PermissionDenied
  | ResourceExhausted
  | FailedPrecondition
  | Aborted
  | OutOfRange
  | Unimplemented
  | Internal
  | Unavailable
  | DataLoss
  | Unauthenticated
deriving DecidableEq, Repr

/-- A gRPC status error as produced by `status.Error` / `status.Errorf`:
a code plus a message. -/
structure GrpcStatus where
  code : Code
  msg : String
deriving DecidableEq, Repr

namespace FileServer

/-- Embeds `FileServer.resolve` (internal/client/client.go):
clean `"/" + rel`, join onto the root, and accept only the root itself or a
path strictly under `root + separator`; otherwise fail with
INVALID_ARGUMENT "path escapes workspace root".  The Go code states the
rejecting condition negated (`abs != root && !HasPrefix(...)`); this is the
same test with the accepting branch first. -/
def resolve (root rel : String) : Except GrpcStatus String :=
  let cleaned := Filepath.clean (("/") ++ rel)
  let abs := Filepath.join2 root cleaned
  if abs = root ∨ hasPrefixStr abs (root ++ ("/")) = true then .ok abs
  else .error ⟨Code.InvalidArgument, "path escapes workspace root"⟩

end FileServer

-- ## Metadata codec

-- Go os.FileMode bit constants (io/fs): type bits live in the high bits.
def goModeDir : Nat := 1 <<< 31
def goModeSymlink : Nat := 1 <<< 27
def goModeDevice : Nat := 1 <<< 26
def goModeNamedPipe : Nat := 1 <<< 25
def goModeSocket : Nat := 1 <<< 24
def goModeSetuid : Nat := 1 <<< 23
def goModeSetgid : Nat := 1 <<< 22
def goModeCharDevice : Nat := 1 <<< 21
def goModeSticky : Nat := 1 <<< 20

/-- A host-native file info as observed through Go `fs.FileInfo`:
base name, size, Go-layout mode word and mod-time in Unix seconds. -/
structure GoFileInfo where
  name : String
  size : Int
  mode : Nat
  modTimeUnix : Int
deriving DecidableEq, Repr

/-- Go `FileMode.IsDir`. -/
def GoFileInfo.IsDir (i : GoFileInfo) : Bool := i.mode &&& goModeDir != 0

/-- The wire `pb.FileInfo` message. -/
structure FileInfo where
  name : String
  size : Int
  mode : Nat
  modTimeUnix : Int
  isDir : Bool
deriving DecidableEq, Repr

/-- Embeds `goModeToUnix` (internal/client/client.go): convert Go's
`os.FileMode` bit layout to Unix mode bits — permission bits, then
setuid/setgid/sticky, then the POSIX type bits at positions 12–15. -/
def goModeToUnix (m : Nat) : Nat :=
  let mode := m &&& 0o777
  let mode := if m &&& goModeSetuid ≠ 0 then mode ||| 0o4000 else mode
  let mode := if m &&& goModeSetgid ≠ 0 then mode ||| 0o2000 else mode
  let mode := if m &&& goModeSticky ≠ 0 then mode ||| 0o1000 else mode
  if m &&& goModeDir ≠ 0 then mode ||| 0o040000
  else if m &&& goModeSymlink ≠ 0 then mode ||| 0o120000
  else if m &&& goModeNamedPipe ≠ 0 then mode ||| 0o010000
  else if m &&& goModeSocket ≠ 0 then mode ||| 0o140000
  else if m &&& goModeDevice ≠ 0 ∧ m &&& goModeCharDevice ≠ 0 then mode ||| 0o020000
  else if m &&& goModeDevice ≠ 0 then mode ||| 0o060000
  else mode ||| 0o100000

/-- Spec-side table (§3 of the spec): the POSIX file-type bits that the wire
mode must carry for each Go file type, with the same precedence as the
code's switch. -/
def posixTypeBits (m : Nat) : Nat :=
  if m &&& goModeDir ≠ 0 then 0o040000
  else if m &&& goModeSymlink ≠ 0 then 0o120000
  else if m &&& goModeNamedPipe ≠ 0 then 0o010000
  else if m &&& goModeSocket ≠ 0 then 0o140000
  else if m &&& goModeDevice ≠ 0 ∧ m &&& goModeCharDevice ≠ 0 then 0o020000
  else if m &&& goModeDevice ≠ 0 then 0o060000
  else 0o100000

/-- Embeds `fileInfoToProto` (internal/client/client.go). -/
def fileInfoToProto (info : GoFileInfo) : FileInfo :=
  { name := info.name
    size := info.size
    mode := goModeToUnix info.mode
    modTimeUnix := info.modTimeUnix
    isDir := info.IsDir }

/-- The fields of `fuse.Stat_t` that the proxy fills (times as seconds). -/
structure Stat_t where
  Mode : Nat := 0
  Size : Int := 0
  Mtim : Int := 0
  Atim : Int := 0
  Ctim : Int := 0
  Birthtim : Int := 0
  Nlink : Nat := 0
  Uid : Nat := 0
  Gid : Nat := 0
  Blksize : Int := 0
  Blocks : Int := 0
deriving DecidableEq, Repr

/-- Embeds `fillStat` (client FUSE proxy): forward mode and size verbatim,
set all four timestamps to the mod-time, nlink 2 for directories and 1
otherwise, blksize 4096 and, when the size is positive, blocks to the Go
truncating division `(size + 511) / 512`.  The process uid/gid that the Go
code reads via `os.Getuid`/`os.Getgid` are passed as parameters. -/
def fillStat (uid gid : Nat) (stat : Stat_t) (info : FileInfo) : Stat_t :=
  let mtim := info.modTimeUnix
  { stat with
    Mode := info.mode
    Size := info.size
    Mtim := mtim
    Atim := mtim
    Ctim := mtim
    Birthtim := mtim
    Nlink := if info.isDir then 2 else 1
    Uid := uid
    Gid := gid
    Blksize := 4096
    Blocks := if info.size > 0 then (info.size + 511).tdiv 512 else stat.Blocks }

/-- A sample regular file: 1000 bytes, permissions 0o644, mod-time 99. -/
def infoEx : GoFileInfo := ⟨"f.txt", 1000, 420, 99⟩

-- ## Error codec

/-- Classification of a host filesystem error, as observed by the Go
predicates `os.IsNotExist`, `os.IsPermission`, `os.IsExist` (on real OS
errors exactly one of them holds, or none). -/
inductive OsErrClass where
  | notExist
  | permission
  | exist
  | other
deriving DecidableEq, Repr

/-- A host filesystem error: its classification plus its message (what Go
renders for the `%v` verb). -/
structure OsErr where
  cls : OsErrClass
  msg : String
deriving DecidableEq, Repr

/-- Embeds `osErrToStatus` (internal/client/client.go): classify a host I/O
failure into a gRPC status, carrying the underlying message. -/
def osErrToStatus (e : OsErr) : GrpcStatus :=
  if e.cls = OsErrClass.notExist then ⟨Code.NotFound, e.msg⟩
  else if e.cls = OsErrClass.permission then ⟨Code.PermissionDenied, e.msg⟩
  else if e.cls = OsErrClass.exist then ⟨Code.AlreadyExists, e.msg⟩
  else ⟨Code.Internal, e.msg⟩

/-- An error received by the FUSE proxy from an RPC call: either a gRPC
status error, or some other (non-gRPC) transport error. -/
inductive RpcError where
  | rpc (code : Code) (msg : String)
  | nonRpc (msg : String)
deriving DecidableEq, Repr

-- POSIX errno values used by cgofuse (identical on Linux and macOS).
def ENOENT : Int := 2
def Eio : Int := 5
def EACCES : Int := 13
def EEXIST : Int := 17
def EINVAL : Int := 22

/-- Embeds `RemoteFS.errToFuse` for a non-nil error: map the gRPC status
code (or a non-gRPC transport error) to a negated FUSE errno. -/
def RemoteFS.errToFuse (e : RpcError) : Int :=
  match e with
  | .nonRpc _ => -Eio
  | .rpc c _ =>
    match c with
    | Code.NotFound => -ENOENT
    | Code.PermissionDenied => -EACCES
    | Code.AlreadyExists => -EEXIST
    | Code.InvalidArgument => -EINVAL
    | Code.DeadlineExceeded => -Eio
    | Code.Unavailable => -Eio
    | _ => -Eio

-- ## Debounced commit scheduler
--
-- Timed model of `Debouncer` (internal/gitops): `Trigger` at time `t` stops
-- any armed timer and arms a fresh one with deadline `t + delay`
-- (`time.AfterFunc`).  A run processes the trigger times in order; an armed
-- timer whose deadline has been reached by the time of the next trigger has
-- already fired, otherwise the trigger cancels it.  After the last trigger
-- the armed timer fires at its deadline.

namespace Debouncer

/-- One `Trigger` call at time `t`: state is (fire times so far, armed
deadline).  A deadline `d ≤ t` fired before this trigger; in either case the
timer is re-armed to `t + delay`. -/
def step (delay : Nat) : List Nat × Option Nat → Nat → List Nat × Option Nat
  | (fs, none), t => (fs, some (t + delay))
  | (fs, some d), t =>
    if d ≤ t then (fs ++ [d], some (t + delay)) else (fs, some (t + delay))

/-- Process a whole sequence of `Trigger` times starting from the idle
state. -/
def run (delay : Nat) (ts : List Nat) : List Nat × Option Nat :=
  ts.foldl (step delay) ([], none)

/-- All times at which the action fires for a trigger sequence that is then
left to quiesce: fires during the run, plus the final armed timer. -/
def fireTimes (delay : Nat) (ts : List Nat) : List Nat :=
  (run delay ts).1 ++ (run delay ts).2.toList

end Debouncer

-- ## Auto-commit engine: commitAndPush
--
-- `runGit` invokes the external git binary; it is modelled by an
-- environment `env : List String → Bool` giving each invocation's success
-- (exit status zero, as seen through Go's `err == nil`).  `commitAndPush`
-- returns whether it succeeded together with the trace of git invocations
-- it performed, in order.

namespace GitOps

def addCmd : List String := ["add", "-A"]

def diffCmd : List String := ["diff", "--cached", "--quiet"]

def commitCmd (msg : String) : List String := ["commit", "-m", msg]

def pushCmd (branch : String) : List String := ["push", "-u", "origin", branch]

/-- Embeds `GitOps.commitAndPush` (internal/gitops): stage everything; if
`diff --cached --quiet` exits zero there is nothing staged, return success;
otherwise commit with the auto-save message and best-effort push.  The
formatted local wall-clock time (`time.Now().Format("15:04:05")`) is
external and passed in as `ts`. -/
def commitAndPush (env : List String → Bool) (ts branch : String) :
    Bool × List (List String) :=
  if !(env addCmd) then (false, [addCmd])
  else if env diffCmd then (true, [addCmd, diffCmd])
  else
    let msg := ("mob: auto-save at ") ++ ts
    if !(env (commitCmd msg)) then (false, [addCmd, diffCmd, commitCmd msg])
    else (true, [addCmd, diffCmd, commitCmd msg, pushCmd branch])

end GitOps

/-- A sample git environment: staging and committing succeed, `diff` finds
staged changes (exit nonzero), and pushing fails. -/
def envEx : List String → Bool := fun c =>
  !(c.head? == some ("diff")) && !(c.head? == some ("push"))

-- ## Host filesystem model and the RPC read/write path
--
-- The server's file operations go through Go `os.Open` / `os.OpenFile`,
-- `Seek`, `Read` and `Write` on regular files.  The host filesystem is
-- modelled as a finite map from absolute path to file content (a byte
-- list); `openFile` models POSIX open(2) for the flag combinations the
-- server uses (read-only; write-only with optional O_TRUNC; O_CREATE is
-- modelled but the write path never sets it).

/-- Host filesystem: association list from absolute path to content. -/
abbrev FS := List (String × List Nat)

/-- Replace (or append) the content stored for a path. -/
def setFile : FS → String → List Nat → FS
  | [], p, c => [(p, c)]
  | (q, d) :: rest, p, c => if q = p then (p, c) :: rest else (q, d) :: setFile rest p c

/-- Open flags, as in Go `os` (`O_WRONLY`, `O_CREATE`, `O_EXCL`,
`O_TRUNC`); unspecified flags default to unset. -/
structure OpenFlags where
  write : Bool := false
  create : Bool := false
  excl : Bool := false
  trunc : Bool := false
deriving DecidableEq, Repr

/-- Models POSIX open(2) as used via Go `os.OpenFile`: an existing file
opens (truncating when O_TRUNC, failing when O_CREATE|O_EXCL); a missing
file is created empty iff O_CREATE is set and otherwise fails not-exist. -/
def openFile (fs : FS) (path : String) (flags : OpenFlags) :
    Except OsErr (List Nat × FS) :=
  match fs.lookup path with
  | some content =>
    if flags.create ∧ flags.excl then .error ⟨OsErrClass.exist, path⟩
    else .ok ((if flags.trunc then [] else content),
      (if flags.trunc then setFile fs path [] else fs))
  | none =>
    if flags.create then .ok ([], setFile fs path [])
    else .error ⟨OsErrClass.notExist, path⟩

/-- The wire `pb.ReadFileRequest`. -/
structure ReadFileRequest where
  path : String
  offset : Int
  length : Int
deriving DecidableEq, Repr

/-- The wire `pb.WriteFileRequest`. -/
structure WriteFileRequest where
  path : String
  data : List Nat
  offset : Int
  truncate : Bool
deriving DecidableEq, Repr

namespace FileServer

-- const maxReadSize = 1 << 20 (1 MiB)
def maxReadSize : Int := 1048576

/-- Embeds `FileServer.ReadFile` (internal/client/client.go): resolve the
path, open read-only, clamp the length to 1 MiB when it is nonpositive or
exceeds the cap, seek when offset > 0, and return the bytes read.  A read
hitting end-of-file returns the (possibly empty) bytes, not an error: the
Go code only fails when the read error is neither nil nor io.EOF. -/
def ReadFile (root : String) (fs : FS) (req : ReadFileRequest) :
    Except GrpcStatus (List Nat) :=
  match resolve root req.path with
  | .error e => .error e
  | .ok abs =>
    match openFile fs abs {} with
    | .error e => .error (osErrToStatus e)
    | .ok (content, _) =>
      let length := if req.length ≤ 0 ∨ req.length > maxReadSize then maxReadSize else req.length
      let pos := if req.offset > 0 then req.offset else 0
      .ok ((content.drop pos.toNat).take length.toNat)

/-- A positional write into a byte list: bytes before `pos` are kept, a
seek past end-of-file zero-fills the gap, `data` overwrites
`[pos, pos + data.length)`, and bytes after the written range are kept. -/
def writeAt (content : List Nat) (pos : Nat) (data : List Nat) : List Nat :=
  content.take pos ++ List.replicate (pos - content.length) 0 ++ data ++
    content.drop (pos + data.length)

/-- Embeds `FileServer.WriteFile`: resolve, open write-only (O_TRUNC iff
`truncate`, never O_CREATE), seek when offset > 0, write the full buffer.
Returns the RPC result together with the resulting host filesystem. -/
def WriteFile (root : String) (fs : FS) (req : WriteFileRequest) :
    Except GrpcStatus Unit × FS :=
  match resolve root req.path with
  | .error e => (.error e, fs)
  | .ok abs =>
    match openFile fs abs { write := true, trunc := req.truncate } with
    | .error e => (.error (osErrToStatus e), fs)
    | .ok (content, fs1) =>
      let pos := (if req.offset > 0 then req.offset else 0).toNat
      (.ok (), setFile fs1 abs (writeAt content pos req.data))

end FileServer

/-- Embeds the request constructed by `RemoteFS.Write` (client FUSE proxy):
path, data and offset are forwarded and the `Truncate` field is left at the
protobuf zero value, false. -/
def RemoteFS.writeRequest (path : String) (buff : List Nat) (ofst : Int) :
    WriteFileRequest :=
  { path := path, data := buff, offset := ofst, truncate := false }

-- ## Statfs (client FUSE proxy)

/-- The fields of `fuse.Statfs_t` that the proxy fills. -/
structure Statfs_t where
  Bsize : Nat := 0
  Frsize : Nat := 0
  Blocks : Nat := 0
  Bfree : Nat := 0
  Bavail : Nat := 0
  Files : Nat := 0
  Ffree : Nat := 0
  Favail : Nat := 0
  Namemax : Nat := 0
deriving DecidableEq, Repr

/-- Embeds `RemoteFS.Statfs`: ignores the path and returns 0 (success)
after filling the synthetic constants. -/
def RemoteFS.Statfs (path : String) (stat : Statfs_t) : Int × Statfs_t :=
  (0, { stat with
    Bsize := 4096
    Frsize := 4096
    Blocks := 1 <<< 30
    Bfree := 1 <<< 29
    Bavail := 1 <<< 29
    Files := 1 <<< 20
    Ffree := 1 <<< 19
    Favail := 1 <<< 19
    Namemax := 255 })

-- ## Theorems

lemma or_lt_4096 (x y : Nat) (hx : x < 4096) (hy : y < 4096) : x ||| y < 4096 := by
  have h : (4096 : ℕ) = 2 ^ 12 := by norm_num
  rw [h] at hx hy ⊢
  exact Nat.or_lt_two_pow hx hy

/-- ANDing with the type-bit mask 0o170000 recovers the type bits when the
other summand only uses the low 12 bits. -/
lemma land_mask_of_or (base t : Nat) (hb : base < 4096) (ht : t &&& 61440 = t) :
    (base ||| t) &&& 61440 = t := by
  apply Nat.eq_of_testBit_eq
  intro i
  rw [Nat.testBit_land, Nat.testBit_lor]
  have ht' : t.testBit i = (t.testBit i && Nat.testBit 61440 i) := by
    conv_lhs => rw [← ht]
    rw [Nat.testBit_land]
  by_cases h12 : 12 ≤ i
  · have hb' : base.testBit i = false :=
      Nat.testBit_lt_two_pow
        (lt_of_lt_of_le hb (Nat.pow_le_pow_right (show 0 < 2 by norm_num) h12))
    rw [hb', Bool.false_or]
    exact ht'.symm
  · push_neg at h12
    have hm : Nat.testBit 61440 i = false := by interval_cases i <;> decide
    rw [hm, Bool.and_false, ht', hm, Bool.and_false]

/-- The wire mode produced by `goModeToUnix` carries exactly the POSIX type
bits of the spec's conversion table. -/
lemma goModeToUnix_type_bits (m : Nat) : goModeToUnix m &&& 61440 = posixTypeBits m := by
  have hperm : m &&& 0o777 < 4096 := lt_of_le_of_lt Nat.and_le_right (by norm_num)
  simp only [goModeToUnix, posixTypeBits]
  split_ifs <;> apply land_mask_of_or <;>
    first
      | decide
      | exact hperm
      | exact or_lt_4096 _ _ hperm (by norm_num)
      | exact or_lt_4096 _ _ (or_lt_4096 _ _ hperm (by norm_num)) (by norm_num)
      | exact or_lt_4096 _ _ (or_lt_4096 _ _ (or_lt_4096 _ _ hperm (by norm_num)) (by norm_num))
          (by norm_num)

/-- Go's truncating `(s + 511) / 512` is the ceiling of `s / 512` for
positive `s`. -/
lemma tdiv_511_eq_ceil (s : Int) (hs : 0 < s) : (s + 511).tdiv 512 = ⌈(s : ℚ) / 512⌉ := by
  have hq : (s + 511).tdiv 512 = (s + 511) / 512 := Int.tdiv_eq_ediv (by omega) (by norm_num)
  rw [hq]
  symm
  rw [Int.ceil_eq_iff]
  constructor
  · have h' : (((s + 511) / 512 - 1 : ℤ) : ℚ) * 512 < ((s : ℤ) : ℚ) := by
      exact_mod_cast (show ((s + 511) / 512 - 1) * 512 < s by omega)
    have h'' := (lt_div_iff₀ (show (0 : ℚ) < 512 by norm_num)).mpr h'
    push_cast at h'' ⊢
    linarith
  · have h' : ((s : ℤ) : ℚ) ≤ (((s + 511) / 512 : ℤ) : ℚ) * 512 := by
      exact_mod_cast (show s ≤ ((s + 511) / 512) * 512 by omega)
    exact (div_le_iff₀ (by norm_num)).mpr h'

/-- C3: encoding a host-native file info to wire form and rendering it with
`fill_stat` preserves the POSIX type bits (per the spec's conversion table),
the full mode word, the size and the mod-time; and `fill_stat` sets
atime = ctime = birthtime = mtime, nlink 2 for directories and 1 otherwise,
blksize 4096, and blocks = ceil(size / 512). -/
theorem metadata_roundtrip (uid gid : Nat) (info : GoFileInfo) (h : 0 ≤ info.size) :
    (fillStat uid gid {} (fileInfoToProto info)).Mode &&& 0o170000 = posixTypeBits info.mode ∧
    (fillStat uid gid {} (fileInfoToProto info)).Mode = goModeToUnix info.mode ∧
    (fillStat uid gid {} (fileInfoToProto info)).Size = info.size ∧
    (fillStat uid gid {} (fileInfoToProto info)).Mtim = info.modTimeUnix ∧
    (fillStat uid gid {} (fileInfoToProto info)).Atim =
      (fillStat uid gid {} (fileInfoToProto info)).Mtim ∧
    (fillStat uid gid {} (fileInfoToProto info)).Ctim =
      (fillStat uid gid {} (fileInfoToProto info)).Mtim ∧
    (fillStat uid gid {} (fileInfoToProto info)).Birthtim =
      (fillStat uid gid {} (fileInfoToProto info)).Mtim ∧
    (fillStat uid gid {} (fileInfoToProto info)).Nlink = (if info.IsDir then 2 else 1) ∧
    (fillStat uid gid {} (fileInfoToProto info)).Blksize = 4096 ∧
    (fillStat uid gid {} (fileInfoToProto info)).Blocks = ⌈(info.size : ℚ) / 512⌉ := by
  refine ⟨goModeToUnix_type_bits info.mode, rfl, rfl, rfl, rfl, rfl, rfl, rfl, rfl, ?_⟩
  show (if info.size > 0 then (info.size + 511).tdiv 512 else 0) = ⌈(info.size : ℚ) / 512⌉
  rcases lt_or_eq_of_le h with hpos | heq
  · rw [if_pos hpos]
    exact tdiv_511_eq_ceil info.size hpos
  · rw [if_neg (by omega), ← heq]
    norm_num

/-- Witness for C3 at a concrete regular file. -/
theorem metadata_roundtrip_witness :
    0 ≤ infoEx.size ∧
    ((fillStat 501 20 {} (fileInfoToProto infoEx)).Mode &&& 0o170000 =
        posixTypeBits infoEx.mode ∧
      (fillStat 501 20 {} (fileInfoToProto infoEx)).Mode = goModeToUnix infoEx.mode ∧
      (fillStat 501 20 {} (fileInfoToProto infoEx)).Size = infoEx.size ∧
      (fillStat 501 20 {} (fileInfoToProto infoEx)).Mtim = infoEx.modTimeUnix ∧
      (fillStat 501 20 {} (fileInfoToProto infoEx)).Atim =
        (fillStat 501 20 {} (fileInfoToProto infoEx)).Mtim ∧
      (fillStat 501 20 {} (fileInfoToProto infoEx)).Ctim =
        (fillStat 501 20 {} (fileInfoToProto infoEx)).Mtim ∧
      (fillStat 501 20 {} (fileInfoToProto infoEx)).Birthtim =
        (fillStat 501 20 {} (fileInfoToProto infoEx)).Mtim ∧
      (fillStat 501 20 {} (fileInfoToProto infoEx)).Nlink = (if infoEx.IsDir then 2 else 1) ∧
      (fillStat 501 20 {} (fileInfoToProto infoEx)).Blksize = 4096 ∧
      (fillStat 501 20 {} (fileInfoToProto infoEx)).Blocks = ⌈(infoEx.size : ℚ) / 512⌉) :=
  ⟨by decide, metadata_roundtrip 501 20 infoEx (by decide)⟩

/-- C2: the error codec is exactly the two stated tables.  Host side: every
filesystem failure maps not-found to NOT_FOUND, permission-denied to
PERMISSION_DENIED, already-exists to ALREADY_EXISTS and everything else to
INTERNAL, always carrying the underlying message.  Client side: every RPC
error maps NOT_FOUND to ENOENT, PERMISSION_DENIED to EACCES, ALREADY_EXISTS
to EEXIST, INVALID_ARGUMENT to EINVAL, DEADLINE_EXCEEDED or UNAVAILABLE to
EIO, and any other error — non-RPC errors included — to EIO (the errno
constant EIO is spelled `Eio` here). -/
theorem error_codec_is_stated_tables :
    (∀ e : OsErr,
      osErrToStatus e =
        ⟨(match e.cls with
          | OsErrClass.notExist => Code.NotFound
          | OsErrClass.permission => Code.PermissionDenied
          | OsErrClass.exist => Code.AlreadyExists
          | OsErrClass.other => Code.Internal), e.msg⟩) ∧
    (∀ e : RpcError,
      RemoteFS.errToFuse e =
        match e with
        | .rpc Code.NotFound _ => -ENOENT
        | .rpc Code.PermissionDenied _ => -EACCES
        | .rpc Code.AlreadyExists _ => -EEXIST
        | .rpc Code.InvalidArgument _ => -EINVAL
        | .rpc Code.DeadlineExceeded _ => -Eio
        | .rpc Code.Unavailable _ => -Eio
        | .rpc _ _ => -Eio
        | .nonRpc _ => -Eio) := by
  constructor
  · intro e
    obtain ⟨cls, msg⟩ := e
    cases cls <;> rfl
  · intro e
    cases e with
    | nonRpc m => rfl
    | rpc c m => cases c <;> rfl

lemma debouncer_run_aux (delay : Nat) :
    ∀ (rest : List Nat) (prev : Nat) (fs : List Nat),
      List.Chain' (fun a b => a ≤ b ∧ b < a + delay) (prev :: rest) →
      rest.foldl (Debouncer.step delay) (fs, some (prev + delay)) =
        (fs, some (rest.getLastD prev + delay)) := by
  intro rest
  induction rest with
  | nil => intro prev fs _; rfl
  | cons t rest ih =>
    intro prev fs hchain
    have h1 : prev ≤ t ∧ t < prev + delay := (List.chain'_cons.mp hchain).1
    have h2 := (List.chain'_cons.mp hchain).2
    rw [List.foldl_cons]
    have hstep :
        Debouncer.step delay (fs, some (prev + delay)) t = (fs, some (t + delay)) := by
      simp only [Debouncer.step]
      rw [if_neg (by omega)]
    rw [hstep, ih t fs h2, List.getLastD_cons]

lemma le_getLastD_of_chain (delay : Nat) :
    ∀ (l : List Nat) (a : Nat),
      List.Chain' (fun a b => a ≤ b ∧ b < a + delay) (a :: l) →
      ∀ t ∈ a :: l, t ≤ l.getLastD a := by
  intro l
  induction l with
  | nil =>
    intro a _ t ht
    simp only [List.mem_singleton] at ht
    simp [ht]
  | cons b l ih =>
    intro a hchain t ht
    have h1 := (List.chain'_cons.mp hchain).1
    have h2 := (List.chain'_cons.mp hchain).2
    rw [List.getLastD_cons]
    rcases List.mem_cons.mp ht with rfl | ht'
    · exact le_trans h1.1 (ih b h2 b (by simp))
    · exact ih b h2 t ht'

/-- C4: for every nonempty sequence of `Trigger` calls in which consecutive
calls are separated by less than `delay`, the action fires exactly once,
and no earlier than `delay` after the last (hence after every) trigger. -/
theorem debouncer_fires_once (delay : Nat) (ts : List Nat) (hne : ts ≠ [])
    (hchain : List.Chain' (fun a b => a ≤ b ∧ b < a + delay) ts) :
    Debouncer.fireTimes delay ts = [ts.getLastD 0 + delay] ∧
    ∀ f ∈ Debouncer.fireTimes delay ts, ∀ t ∈ ts, t + delay ≤ f := by
  obtain ⟨t0, rest, rfl⟩ := List.exists_cons_of_ne_nil hne
  have hrun : Debouncer.run delay (t0 :: rest) = ([], some (rest.getLastD t0 + delay)) := by
    show (t0 :: rest).foldl (Debouncer.step delay) ([], none) = _
    rw [List.foldl_cons]
    exact debouncer_run_aux delay rest t0 [] hchain
  have hfire : Debouncer.fireTimes delay (t0 :: rest) = [rest.getLastD t0 + delay] := by
    simp [Debouncer.fireTimes, hrun]
  constructor
  · rw [hfire, List.getLastD_cons]
  · intro f hf t ht
    rw [hfire] at hf
    simp only [List.mem_singleton] at hf
    subst hf
    have := le_getLastD_of_chain delay rest t0 hchain t ht
    omega

/-- Witness for C4: spec scenario 4 — delay 50, triggers at t = 0 and
t = 30; the single fire is at t = 80. -/
theorem debouncer_fires_once_witness :
    ([0, 30] : List Nat) ≠ [] ∧
    List.Chain' (fun a b => a ≤ b ∧ b < a + 50) [0, 30] ∧
    (Debouncer.fireTimes 50 [0, 30] = [[0, 30].getLastD 0 + 50] ∧
      ∀ f ∈ Debouncer.fireTimes 50 [0, 30], ∀ t ∈ [0, 30], t + 50 ≤ f) :=
  ⟨by decide, by norm_num [List.chain'_cons],
    debouncer_fires_once 50 [0, 30] (by decide) (by norm_num [List.chain'_cons])⟩

/-- C5: `commit_and_push` always stages first with `add -A`; when
`diff --cached --quiet` exits zero it returns success having run no commit;
otherwise it creates exactly one commit, whose message is
`mob: auto-save at ` followed by the wall-clock string, then attempts
`push -u origin <branch>` — and it returns success whether or not the push
succeeds, so a push failure is never propagated. -/
theorem commitAndPush_behavior (env : List String → Bool) (ts branch : String)
    (hAdd : env GitOps.addCmd = true)
    (hCommit : env GitOps.diffCmd = false →
      env (GitOps.commitCmd (("mob: auto-save at ") ++ ts)) = true) :
    (GitOps.commitAndPush env ts branch).2.head? = some GitOps.addCmd ∧
    (env GitOps.diffCmd = true →
      (GitOps.commitAndPush env ts branch).1 = true ∧
      ∀ c ∈ (GitOps.commitAndPush env ts branch).2, c.head? ≠ some ("commit")) ∧
    (env GitOps.diffCmd = false →
      (GitOps.commitAndPush env ts branch).1 = true ∧
      ((GitOps.commitAndPush env ts branch).2.filter
        (fun c => c.head? == some ("commit"))).length = 1 ∧
      GitOps.commitCmd (("mob: auto-save at ") ++ ts) ∈ (GitOps.commitAndPush env ts branch).2 ∧
      GitOps.pushCmd branch ∈ (GitOps.commitAndPush env ts branch).2) := by
  by_cases hdiff : env GitOps.diffCmd = true
  · have hres : GitOps.commitAndPush env ts branch = (true, [GitOps.addCmd, GitOps.diffCmd]) := by
      simp [GitOps.commitAndPush, hAdd, hdiff]
    refine ⟨?_, fun _ => ⟨?_, ?_⟩, fun hfalse => absurd hdiff (by simp [hfalse])⟩
    · rw [hres]
      rfl
    · rw [hres]
    · intro c hcm
      rw [hres] at hcm
      simp only [List.mem_cons, List.not_mem_nil, or_false] at hcm
      rcases hcm with rfl | rfl <;> simp [GitOps.addCmd, GitOps.diffCmd]
  · have hdiff' : env GitOps.diffCmd = false := by simpa using hdiff
    have hc := hCommit hdiff'
    have hres : GitOps.commitAndPush env ts branch =
        (true, [GitOps.addCmd, GitOps.diffCmd,
          GitOps.commitCmd (("mob: auto-save at ") ++ ts), GitOps.pushCmd branch]) := by
      simp [GitOps.commitAndPush, hAdd, hdiff', hc]
    refine ⟨?_, fun htrue => absurd htrue (by simp [hdiff']), fun _ => ⟨?_, ?_, ?_, ?_⟩⟩ <;>
      rw [hres] <;>
      simp [GitOps.addCmd, GitOps.diffCmd, GitOps.commitCmd, GitOps.pushCmd, List.filter]

/-- Witness for C5: a run with staged changes and an unavailable remote
commits exactly once and still reports success. -/
theorem commitAndPush_behavior_witness :
    envEx GitOps.addCmd = true ∧
    (envEx GitOps.diffCmd = false →
      envEx (GitOps.commitCmd (("mob: auto-save at ") ++ ("12:00:00"))) = true) ∧
    ((GitOps.commitAndPush envEx ("12:00:00") ("mob/session-abc")).2.head? =
        some GitOps.addCmd ∧
      (envEx GitOps.diffCmd = true →
        (GitOps.commitAndPush envEx ("12:00:00") ("mob/session-abc")).1 = true ∧
        ∀ c ∈ (GitOps.commitAndPush envEx ("12:00:00") ("mob/session-abc")).2,
          c.head? ≠ some ("commit")) ∧
      (envEx GitOps.diffCmd = false →
        (GitOps.commitAndPush envEx ("12:00:00") ("mob/session-abc")).1 = true ∧
        ((GitOps.commitAndPush envEx ("12:00:00") ("mob/session-abc")).2.filter
          (fun c => c.head? == some ("commit"))).length = 1 ∧
        GitOps.commitCmd (("mob: auto-save at ") ++ ("12:00:00")) ∈
          (GitOps.commitAndPush envEx ("12:00:00") ("mob/session-abc")).2 ∧
        GitOps.pushCmd ("mob/session-abc") ∈
          (GitOps.commitAndPush envEx ("12:00:00") ("mob/session-abc")).2)) :=
  ⟨by decide, by decide,
    commitAndPush_behavior envEx ("12:00:00") ("mob/session-abc") (by decide) (by decide)⟩

lemma lookup_setFile_self (fs : FS) (p : String) (c : List Nat) :
    (setFile fs p c).lookup p = some c := by
  induction fs with
  | nil => simp [setFile, List.lookup_cons]
  | cons hd tl ih =>
    obtain ⟨q, d⟩ := hd
    by_cases h : q = p
    · simp [setFile, h, List.lookup_cons]
    · have h' : (p == q) = false := by
        simp only [beq_eq_false_iff_ne, ne_eq]
        exact fun hh => h hh.symm
      simp [setFile, h, List.lookup_cons, h', ih]

lemma lookup_setFile_ne (fs : FS) (p q : String) (c : List Nat) (h : q ≠ p) :
    (setFile fs p c).lookup q = fs.lookup q := by
  have h' : (q == p) = false := by simpa using h
  induction fs with
  | nil => simp [setFile, List.lookup_cons, h']
  | cons hd tl ih =>
    obtain ⟨r, d⟩ := hd
    by_cases hr : r = p
    · subst hr
      simp [setFile, List.lookup_cons, h']
    · simp [setFile, hr, List.lookup_cons, ih]

/-- C1: for every workspace root and every wire path (`..` segments
included), `resolve` either returns an absolute path equal to the root or
starting with the root followed by the separator, or fails with
INVALID_ARGUMENT "path escapes workspace root"; it never returns a path
outside the root, in particular never a sibling whose name merely has the
root as a string prefix. -/
theorem resolve_stays_inside_root (root rel : String) :
    match FileServer.resolve root rel with
    | .ok a => a = root ∨ hasPrefixStr a (root ++ ("/")) = true
    | .error e => e = ⟨Code.InvalidArgument, "path escapes workspace root"⟩ := by
  unfold FileServer.resolve
  by_cases h :
      Filepath.join2 root (Filepath.clean (("/") ++ rel)) = root ∨
        hasPrefixStr (Filepath.join2 root (Filepath.clean (("/") ++ rel)))
          (root ++ ("/")) = true
  · simp only [if_pos h]
    exact h
  · simp only [if_neg h]

-- ## writeAt frame lemmas

lemma writeAt_length (content : List Nat) (pos : Nat) (data : List Nat) :
    (FileServer.writeAt content pos data).length = max content.length (pos + data.length) := by
  simp only [FileServer.writeAt, List.length_append, List.length_take, List.length_replicate,
    List.length_drop]
  omega

lemma writeAt_getElem_left (content : List Nat) (pos : Nat) (data : List Nat) (i : Nat)
    (h : i < pos) (hlen : i < content.length) :
    (FileServer.writeAt content pos data)[i]? = content[i]? := by
  simp only [FileServer.writeAt, List.append_assoc, List.getElem?_append, List.length_take,
    List.length_replicate, List.getElem?_take, List.getElem?_drop, List.getElem?_replicate]
  split_ifs <;> first | rfl | omega | (congr 1 <;> omega)

lemma writeAt_getElem_right (content : List Nat) (pos : Nat) (data : List Nat) (i : Nat)
    (h : pos + data.length ≤ i) (hlen : i < content.length) :
    (FileServer.writeAt content pos data)[i]? = content[i]? := by
  simp only [FileServer.writeAt, List.append_assoc, List.getElem?_append, List.length_take,
    List.length_replicate, List.getElem?_take, List.getElem?_drop, List.getElem?_replicate]
  split_ifs <;> first | rfl | omega | (congr 1 <;> omega)

lemma writeAt_getElem_data (content : List Nat) (pos : Nat) (data : List Nat) (j : Nat)
    (hj : j < data.length) :
    (FileServer.writeAt content pos data)[pos + j]? = data[j]? := by
  simp only [FileServer.writeAt, List.append_assoc, List.getElem?_append, List.length_take,
    List.length_replicate, List.getElem?_take, List.getElem?_drop, List.getElem?_replicate]
  split_ifs <;> first | rfl | omega | (congr 1 <;> omega)

-- ## Claims about the RPC read/write path

/-- C6: `WriteFile` never creates a file: when the resolved path does not
exist under the workspace root, it fails with NOT_FOUND (the server opens
write-only with no create flag) and the host filesystem is unchanged — in
particular no file comes into existence at that path. -/
theorem writefile_missing_path_not_created (root : String) (fs : FS) (req : WriteFileRequest)
    (abs : String) (hres : FileServer.resolve root req.path = .ok abs)
    (habs : fs.lookup abs = none) :
    (∃ m, (FileServer.WriteFile root fs req).1 = .error ⟨Code.NotFound, m⟩) ∧
    (FileServer.WriteFile root fs req).2 = fs ∧
    (FileServer.WriteFile root fs req).2.lookup abs = none := by
  have hw : FileServer.WriteFile root fs req = (.error ⟨Code.NotFound, abs⟩, fs) := by
    simp [FileServer.WriteFile, hres, openFile, habs, osErrToStatus]
  exact ⟨⟨abs, by rw [hw]⟩, by rw [hw], by rw [hw]; exact habs⟩

/-- Witness for C6: writing to the nonexistent `/b` fails NOT_FOUND and
creates nothing. -/
theorem writefile_missing_path_not_created_witness :
    FileServer.resolve ("/w") ("/b") = .ok ("/w/b") ∧
    ([(("/w/a"), [1])] : FS).lookup ("/w/b") = none ∧
    ((∃ m, (FileServer.WriteFile ("/w") [(("/w/a"), [1])] ⟨"/b", [7], 0, false⟩).1 =
        .error ⟨Code.NotFound, m⟩) ∧
      (FileServer.WriteFile ("/w") [(("/w/a"), [1])] ⟨"/b", [7], 0, false⟩).2 =
        [(("/w/a"), [1])] ∧
      (FileServer.WriteFile ("/w") [(("/w/a"), [1])] ⟨"/b", [7], 0, false⟩).2.lookup
        ("/w/b") = none) :=
  ⟨rfl, by decide,
    writefile_missing_path_not_created ("/w") [(("/w/a"), [1])] ⟨"/b", [7], 0, false⟩
      ("/w/b") rfl (by decide)⟩

/-- C7: the read length is clamped — requests of at most 0 or more than
1 MiB bytes read with an effective length of exactly 1 MiB, all others with
the requested length — and the response carries at most the effective
length in bytes. -/
theorem readfile_clamps_length (root : String) (fs : FS) (req : ReadFileRequest)
    (abs : String) (content : List Nat)
    (hres : FileServer.resolve root req.path = .ok abs)
    (hc : fs.lookup abs = some content) :
    FileServer.ReadFile root fs req =
      .ok ((content.drop (if req.offset > 0 then req.offset else 0).toNat).take
        (if req.length ≤ 0 ∨ req.length > 1048576 then (1048576 : Int) else req.length).toNat) ∧
    (∀ data, FileServer.ReadFile root fs req = .ok data →
      (data.length : Int) ≤
        (if req.length ≤ 0 ∨ req.length > 1048576 then (1048576 : Int) else req.length)) := by
  have h1 : FileServer.ReadFile root fs req =
      .ok ((content.drop (if req.offset > 0 then req.offset else 0).toNat).take
        (if req.length ≤ 0 ∨ req.length > 1048576 then (1048576 : Int) else req.length).toNat) := by
    simp [FileServer.ReadFile, hres, openFile, hc, FileServer.maxReadSize]
  refine ⟨h1, ?_⟩
  intro data hdata
  rw [h1] at hdata
  injection hdata with hd
  subst hd
  have hlt := List.length_take_le
    (if req.length ≤ 0 ∨ req.length > 1048576 then (1048576 : Int) else req.length).toNat
    (content.drop (if req.offset > 0 then req.offset else 0).toNat)
  by_cases hcase : req.length ≤ 0 ∨ req.length > 1048576
  · rw [if_pos hcase] at hlt ⊢
    omega
  · rw [if_neg hcase] at hlt ⊢
    push_neg at hcase
    omega

/-- Witness for C7: a request of length 0 is clamped to 1 MiB and returns
the whole 3-byte file. -/
theorem readfile_clamps_length_witness :
    FileServer.resolve ("/w") ("/f") = .ok ("/w/f") ∧
    ([(("/w/f"), [1, 2, 3])] : FS).lookup ("/w/f") = some [1, 2, 3] ∧
    (FileServer.ReadFile ("/w") [(("/w/f"), [1, 2, 3])] ⟨"/f", 0, 0⟩ =
      .ok ((([1, 2, 3] : List Nat).drop (if (0 : Int) > 0 then (0 : Int) else 0).toNat).take
        (if (0 : Int) ≤ 0 ∨ (0 : Int) > 1048576 then (1048576 : Int) else 0).toNat) ∧
    (∀ data, FileServer.ReadFile ("/w") [(("/w/f"), [1, 2, 3])] ⟨"/f", 0, 0⟩ = .ok data →
      (data.length : Int) ≤
        (if (0 : Int) ≤ 0 ∨ (0 : Int) > 1048576 then (1048576 : Int) else 0))) :=
  ⟨rfl, by decide,
    readfile_clamps_length ("/w") [(("/w/f"), [1, 2, 3])] ⟨"/f", 0, 0⟩ ("/w/f") [1, 2, 3]
      rfl (by decide)⟩

/-- C9: reading an existing file at any offset at or past end-of-file
succeeds with empty data rather than failing — for arbitrary offsets past
the end, not only offset == size. -/
theorem readfile_past_end_returns_empty (root : String) (fs : FS) (req : ReadFileRequest)
    (abs : String) (content : List Nat)
    (hres : FileServer.resolve root req.path = .ok abs)
    (hc : fs.lookup abs = some content)
    (hoff : (content.length : Int) ≤ req.offset) :
    FileServer.ReadFile root fs req = .ok [] := by
  have hdrop : content.drop (if req.offset > 0 then req.offset else 0).toNat = [] := by
    by_cases hpos : req.offset > 0
    · rw [if_pos hpos]
      exact List.drop_eq_nil_of_le (by omega)
    · rw [if_neg hpos]
      have h0 : content.length = 0 := by omega
      rw [List.length_eq_zero.mp h0]
      simp
  simp [FileServer.ReadFile, hres, openFile, hc, hdrop]

/-- Witness for C9: reading a 2-byte file at offset 5 returns empty data. -/
theorem readfile_past_end_returns_empty_witness :
    FileServer.resolve ("/w") ("/f") = .ok ("/w/f") ∧
    ([(("/w/f"), [1, 2])] : FS).lookup ("/w/f") = some [1, 2] ∧
    (([1, 2] : List Nat).length : Int) ≤ 5 ∧
    FileServer.ReadFile ("/w") [(("/w/f"), [1, 2])] ⟨"/f", 5, 10⟩ = .ok [] :=
  ⟨rfl, by decide, by decide,
    readfile_past_end_returns_empty ("/w") [(("/w/f"), [1, 2])] ⟨"/f", 5, 10⟩ ("/w/f") [1, 2]
      rfl (by decide) (by decide)⟩

/-- C10: the FUSE proxy's write sends truncate = false, so a write to an
existing file replaces exactly the byte range `[ofst, ofst + len)`
(extending the file if needed), never shrinks the file, leaves every byte
outside the written range unchanged, and touches no other file. -/
theorem proxy_write_modifies_only_range (root : String) (fs : FS) (path : String)
    (buff : List Nat) (ofst : Int) (abs : String) (old : List Nat)
    (hres : FileServer.resolve root path = .ok abs)
    (hold : fs.lookup abs = some old) (hofst : 0 ≤ ofst) :
    (RemoteFS.writeRequest path buff ofst).truncate = false ∧
    (FileServer.WriteFile root fs (RemoteFS.writeRequest path buff ofst)).1 = .ok () ∧
    (FileServer.WriteFile root fs (RemoteFS.writeRequest path buff ofst)).2.lookup abs =
      some (FileServer.writeAt old ofst.toNat buff) ∧
    (FileServer.writeAt old ofst.toNat buff).length =
      max old.length (ofst.toNat + buff.length) ∧
    old.length ≤ (FileServer.writeAt old ofst.toNat buff).length ∧
    (∀ i, i < old.length → i < ofst.toNat ∨ ofst.toNat + buff.length ≤ i →
      (FileServer.writeAt old ofst.toNat buff)[i]? = old[i]?) ∧
    (∀ j, j < buff.length →
      (FileServer.writeAt old ofst.toNat buff)[ofst.toNat + j]? = buff[j]?) ∧
    (∀ q, q ≠ abs →
      (FileServer.WriteFile root fs (RemoteFS.writeRequest path buff ofst)).2.lookup q =
        fs.lookup q) := by
  have heq : (if ofst > 0 then ofst else 0).toNat = ofst.toNat := by
    split <;> omega
  have hw : FileServer.WriteFile root fs (RemoteFS.writeRequest path buff ofst) =
      (.ok (), setFile fs abs (FileServer.writeAt old ofst.toNat buff)) := by
    simp [FileServer.WriteFile, RemoteFS.writeRequest, hres, openFile, hold, heq]
  refine ⟨rfl, by rw [hw], ?_, writeAt_length old ofst.toNat buff, ?_, ?_, ?_, ?_⟩
  · rw [hw]
    exact lookup_setFile_self fs abs _
  · rw [writeAt_length]
    omega
  · intro i hi hrange
    rcases hrange with hlt | hge
    · exact writeAt_getElem_left old ofst.toNat buff i hlt hi
    · exact writeAt_getElem_right old ofst.toNat buff i hge hi
  · intro j hj
    exact writeAt_getElem_data old ofst.toNat buff j hj
  · intro q hq
    rw [hw]
    exact lookup_setFile_ne fs abs q _ hq

/-- Witness for C10: writing `[9, 9]` at offset 1 of `[1, 2, 3, 4, 5]`. -/
theorem proxy_write_modifies_only_range_witness :
    FileServer.resolve ("/w") ("/a") = .ok ("/w/a") ∧
    ([(("/w/a"), [1, 2, 3, 4, 5])] : FS).lookup ("/w/a") = some [1, 2, 3, 4, 5] ∧
    (0 : Int) ≤ 1 ∧
    ((RemoteFS.writeRequest ("/a") [9, 9] 1).truncate = false ∧
      (FileServer.WriteFile ("/w") [(("/w/a"), [1, 2, 3, 4, 5])]
        (RemoteFS.writeRequest ("/a") [9, 9] 1)).1 = .ok () ∧
      (FileServer.WriteFile ("/w") [(("/w/a"), [1, 2, 3, 4, 5])]
        (RemoteFS.writeRequest ("/a") [9, 9] 1)).2.lookup ("/w/a") =
        some (FileServer.writeAt [1, 2, 3, 4, 5] (1 : Int).toNat [9, 9]) ∧
      (FileServer.writeAt [1, 2, 3, 4, 5] (1 : Int).toNat [9, 9]).length =
        max ([1, 2, 3, 4, 5] : List Nat).length ((1 : Int).toNat + ([9, 9] : List Nat).length) ∧
      ([1, 2, 3, 4, 5] : List Nat).length ≤
        (FileServer.writeAt [1, 2, 3, 4, 5] (1 : Int).toNat [9, 9]).length ∧
      (∀ i, i < ([1, 2, 3, 4, 5] : List Nat).length →
        i < (1 : Int).toNat ∨ (1 : Int).toNat + ([9, 9] : List Nat).length ≤ i →
        (FileServer.writeAt [1, 2, 3, 4, 5] (1 : Int).toNat [9, 9])[i]? =
          ([1, 2, 3, 4, 5] : List Nat)[i]?) ∧
      (∀ j, j < ([9, 9] : List Nat).length →
        (FileServer.writeAt [1, 2, 3, 4, 5] (1 : Int).toNat [9, 9])[(1 : Int).toNat + j]? =
          ([9, 9] : List Nat)[j]?) ∧
      (∀ q, q ≠ "/w/a" →
        (FileServer.WriteFile ("/w") [(("/w/a"), [1, 2, 3, 4, 5])]
          (RemoteFS.writeRequest ("/a") [9, 9] 1)).2.lookup q =
          ([(("/w/a"), [1, 2, 3, 4, 5])] : FS).lookup q)) :=
  ⟨rfl, by decide, by decide,
    proxy_write_modifies_only_range ("/w") [(("/w/a"), [1, 2, 3, 4, 5])] ("/a") [9, 9] 1
      ("/w/a") [1, 2, 3, 4, 5] rfl (by decide) (by decide)⟩

-- ## Statfs claims

/-- C8 counterexample: the synthetic statfs result reports 2^30 blocks of
4096 bytes, a total capacity of 4 TiB — which is not approximately 1 TiB
(it is not even within a factor of two of it). -/
theorem statfs_capacity_is_4TiB_not_1TiB :
    (RemoteFS.Statfs ("/") {}).2.Blocks * (RemoteFS.Statfs ("/") {}).2.Bsize = 4 * 2 ^ 40 ∧
    ¬((RemoteFS.Statfs ("/") {}).2.Blocks * (RemoteFS.Statfs ("/") {}).2.Bsize ≤ 2 * 2 ^ 40) := by
  constructor <;> decide

/-- C8 (amended): for every path the proxy's statfs succeeds and returns
bsize = frsize = 4096, namemax = 255, and 2^30 total blocks — a total
capacity of 4 TiB. -/
theorem statfs_returns_synthetic_constants (path : String) (st : Statfs_t) :
    (RemoteFS.Statfs path st).1 = 0 ∧
    (RemoteFS.Statfs path st).2.Bsize = 4096 ∧
    (RemoteFS.Statfs path st).2.Frsize = 4096 ∧
    (RemoteFS.Statfs path st).2.Namemax = 255 ∧
    (RemoteFS.Statfs path st).2.Blocks = 2 ^ 30 ∧
    (RemoteFS.Statfs path st).2.Blocks * (RemoteFS.Statfs path st).2.Bsize = 4 * 2 ^ 40 :=
  ⟨rfl, rfl, rfl, rfl, by norm_num [RemoteFS.Statfs, Nat.shiftLeft_eq],
    by norm_num [RemoteFS.Statfs, Nat.shiftLeft_eq]⟩

end BlueGuy

